import Mathlib

/-!
Verification development for the VAT bookkeeping bot (src/index.js).

JavaScript numbers of the program are modelled as exact rationals; the
two-decimal rounding performed by the toFixed(2) idiom of the source is modelled
by round-half-away-from-zero at two decimal places, which is the semantics
the specification assigns to it.  Strings are Lean strings; character-level
scanning functions mirror the regular expressions of the source over the exact
alphabets those regexes use.
-/

namespace VatBot

/-- Round a rational to the nearest integer, ties away from zero.
Models the rounding of the toFixed idiom of the source. -/
def roundHalfAway (q : ℚ) : ℤ :=
  if 0 ≤ q then ⌊q + 1 / 2⌋ else -⌊-q + 1 / 2⌋

/-- Round a rational to two decimal places, half away from zero.
Models the +x.toFixed(2) idiom of the source. -/
def round2 (q : ℚ) : ℚ :=
  ((roundHalfAway (q * 100) : ℤ) : ℚ) / 100

/-- A rational that is a whole number of cents, i.e. has at most two
decimal places. -/
def isCent (q : ℚ) : Prop :=
  ∃ k : ℤ, q = (k : ℚ) / 100

/-! Character and string helpers mirroring the JavaScript primitives the
source relies on: regex character classes, trim, slice, toUpperCase. -/

/-- Whitespace as matched by the regex class of the source and by trim.
The rare exotic Unicode space characters also matched by JavaScript are
immaterial to the inputs modelled here. -/
def isSpaceChar (c : Char) : Bool :=
  c = ' ' || c = '\t' || c = '\n' || c = '\r' || c = '\x0b' || c = '\x0c'

/-- Decimal digit, the regex class of digits. -/
def isDigitChar (c : Char) : Bool :=
  '0' ≤ c && c ≤ '9'

/-- Word character of JavaScript regex word boundaries: ASCII letters,
digits and underscore (the regexes of the source have no Unicode flag, so
Cyrillic letters are not word characters). -/
def isWordChar (c : Char) : Bool :=
  ('a' ≤ c && c ≤ 'z') || ('A' ≤ c && c ≤ 'Z') || isDigitChar c || c = '_'

/-- ASCII letter, the class used for the optional currency token. -/
def isAsciiLetter (c : Char) : Bool :=
  ('a' ≤ c && c ≤ 'z') || ('A' ≤ c && c ≤ 'Z')

/-- Uppercase an ASCII letter, modelling toUpperCase on currency codes. -/
def upperChar (c : Char) : Char :=
  if 'a' ≤ c && c ≤ 'z' then Char.ofNat (c.toNat - 32) else c

/-- Lowercase the characters relevant to the case-insensitive VAT-cue
regexes: the Cyrillic letters of the two cue words plus ASCII. -/
def lowerCue (c : Char) : Char :=
  if c = 'Б' then 'б'
  else if c = 'Е' then 'е'
  else if c = 'З' then 'з'
  else if c = 'П' then 'п'
  else if c = 'Д' then 'д'
  else if c = 'В' then 'в'
  else if 'A' ≤ c && c ≤ 'Z' then Char.ofNat (c.toNat + 32)
  else c

/-- Drop leading whitespace from a character list. -/
def dropLeadingSpace (cs : List Char) : List Char :=
  cs.dropWhile isSpaceChar

/-- Trim both ends of a character list, modelling String.prototype.trim. -/
def trimL (cs : List Char) : List Char :=
  ((dropLeadingSpace cs).reverse.dropWhile isSpaceChar).reverse

/-- Trim a string, modelling text.trim() in the source. -/
def trimStr (s : String) : String :=
  ⟨trimL s.data⟩

/-- Uppercase a string, modelling toUpperCase on currency codes. -/
def upperStr (s : String) : String :=
  ⟨s.data.map upperChar⟩

/-- First n characters of a string, modelling s.slice(0, n). -/
def strTake (s : String) (n : Nat) : String :=
  ⟨s.data.take n⟩

/-- Boolean test that p is a leading segment of l. -/
def leadsList : List Char → List Char → Bool
  | [], _ => true
  | _ :: _, [] => false
  | a :: as, b :: bs => a = b && leadsList as bs

/-- Test that s starts with p, modelling text.startsWith(p). -/
def startsWithStr (s p : String) : Bool :=
  leadsList p.data s.data

/-- Split a character list at newline characters, modelling
text.split of a newline. -/
def splitNL : List Char → List (List Char)
  | [] => [[]]
  | c :: cs =>
    if c = '\n' then [] :: splitNL cs
    else
      match splitNL cs with
      | h :: t => (c :: h) :: t
      | [] => [[c]]

/-! VAT cue detection.  The source tests the concatenation of the raw line
and its free-text remainder against two case-insensitive regexes: the
with-VAT cue (Cyrillic letter z, optional whitespace, the letters p d v)
and the without-VAT cue (the word bez, optional whitespace, p d v). -/

/-- Match optional whitespace followed by the Cyrillic letters p, d, v,
case-insensitively.  Models the common tail of both cue regexes; the
greedy whitespace star of the regex is equivalent to skipping all
whitespace because the following letter is not whitespace. -/
def cueTail : List Char → Bool
  | [] => false
  | c :: rest =>
    if isSpaceChar c then cueTail rest
    else
      match rest with
      | d :: v :: _ => lowerCue c = 'п' && lowerCue d = 'д' && lowerCue v = 'в'
      | _ => false

/-- Match the without-VAT cue at the head of the list. -/
def bezCueAt : List Char → Bool
  | b :: e :: z :: rest =>
    lowerCue b = 'б' && lowerCue e = 'е' && lowerCue z = 'з' && cueTail rest
  | _ => false

/-- Match the with-VAT cue at the head of the list. -/
def zCueAt : List Char → Bool
  | z :: rest => lowerCue z = 'з' && cueTail rest
  | [] => false

/-- Scan for the without-VAT cue anywhere in the list. -/
def containsBezCue : List Char → Bool
  | [] => false
  | c :: rest => bezCueAt (c :: rest) || containsBezCue rest

/-- Scan for the with-VAT cue anywhere in the list. -/
def containsZCue : List Char → Bool
  | [] => false
  | c :: rest => zCueAt (c :: rest) || containsZCue rest

/-- Test of the saidWithVAT regex of the source on a string. -/
def saidWithVAT (s : String) : Bool :=
  containsZCue s.data

/-- Test of the saidWithoutVAT regex of the source on a string. -/
def saidWithoutVAT (s : String) : Bool :=
  containsBezCue s.data

/-! Date detection.  detectExplicitDate tries an ISO pattern
(year-month-day, digit counts 4-2-2, word boundaries on both sides) and
then a dotted day-first pattern (2-2-4 separated by dots, reinterpreted to
ISO order); toISO passes ISO-shaped strings through and substitutes the
current date otherwise. -/

/-- Word boundary holds before the next character (the pattern ends in a
digit, so a boundary means end of input or a non-word character). -/
def noWordAhead : List Char → Bool
  | [] => true
  | c :: _ => !(isWordChar c)

/-- Word boundary holds after the previous character (the pattern starts
with a digit, so a boundary means start of input or a non-word
character before). -/
def boundaryBefore : Option Char → Bool
  | none => true
  | some c => !(isWordChar c)

/-- Match the ISO date pattern at the head of the list; on success return
the date string assembled from the three capture groups. -/
def isoAt (cs : List Char) : Option (List Char) :=
  match cs with
  | a :: b :: c :: d :: e :: f :: g :: h :: i :: j :: rest =>
    if isDigitChar a && isDigitChar b && isDigitChar c && isDigitChar d
        && e = '-' && isDigitChar f && isDigitChar g && h = '-'
        && isDigitChar i && isDigitChar j && noWordAhead rest
    then some [a, b, c, d, '-', f, g, '-', i, j]
    else none
  | _ => none

/-- Match the dotted day-first date pattern at the head of the list; on
success return the capture groups reassembled in ISO order. -/
def dottedAt (cs : List Char) : Option (List Char) :=
  match cs with
  | a :: b :: e :: c :: d :: f :: g :: h :: i :: j :: rest =>
    if isDigitChar a && isDigitChar b && e = '.' && isDigitChar c
        && isDigitChar d && f = '.' && isDigitChar g && isDigitChar h
        && isDigitChar i && isDigitChar j && noWordAhead rest
    then some [g, h, i, j, '-', c, d, '-', a, b]
    else none
  | _ => none

/-- Scan for the leftmost ISO date match, tracking the previous character
for the leading word boundary. -/
def scanISO (prev : Option Char) : List Char → Option (List Char)
  | [] => none
  | c :: rest =>
    match (if boundaryBefore prev then isoAt (c :: rest) else none) with
    | some m => some m
    | none => scanISO (some c) rest

/-- Scan for the leftmost dotted date match. -/
def scanDotted (prev : Option Char) : List Char → Option (List Char)
  | [] => none
  | c :: rest =>
    match (if boundaryBefore prev then dottedAt (c :: rest) else none) with
    | some m => some m
    | none => scanDotted (some c) rest

/-- Model of detectExplicitDate: an empty (falsy) text yields nothing;
otherwise the ISO pattern is tried over the whole text first and the
dotted pattern second. -/
def detectExplicitDate (text : String) : Option String :=
  if text.data = [] then none
  else
    match scanISO none text.data with
    | some m => some ⟨m⟩
    | none =>
      match scanDotted none text.data with
      | some m => some ⟨m⟩
      | none => none

/-- Shape test of the anchored ISO regex in toISO: exactly ten characters,
digits in the date positions and dashes between the groups. -/
def isShapeL (l : List Char) : Bool :=
  match l with
  | [a, b, c, d, e, f, g, h, i, j] =>
    isDigitChar a && isDigitChar b && isDigitChar c && isDigitChar d
      && e = '-' && isDigitChar f && isDigitChar g && h = '-'
      && isDigitChar i && isDigitChar j
  | _ => false

/-- Shape test on strings. -/
def isISOShape (s : String) : Bool :=
  isShapeL s.data

/-- Model of toISO: a string already in ISO shape passes through; any
other argument (or no argument) is replaced by the current processing
date, supplied here as an explicit parameter. -/
def toISO (dateLike : Option String) (todayISO : String) : String :=
  match dateLike with
  | some s => if isISOShape s then s else todayISO
  | none => todayISO

/-- The date resolution performed per line by the entry builder: explicit
date from the raw line, else from the free-text remainder, else the
current processing date. -/
def resolveDate (raw rest todayISO : String) : String :=
  match detectExplicitDate raw with
  | some e => toISO (some e) todayISO
  | none =>
    match detectExplicitDate rest with
    | some e => toISO (some e) todayISO
    | none => toISO none todayISO

/-! Data model. -/

/-- Result of the amount triplet calculator. -/
structure Triplet where
  net : ℚ
  vat : ℚ
  gross : ℚ
deriving DecidableEq

/-- Per-session settings, fixed at session creation. -/
structure Settings where
  currency : String
  vatRate : ℚ
deriving DecidableEq

/-- Provisional line produced by the tokenizer.  The amount is an exact
rational; the tokenizer only emits lines whose amount parsed to a finite
number. -/
structure Line where
  type : String
  amount : ℚ
  currency : Option String
  rest : String
  raw : String
deriving DecidableEq

/-- The fields of the JSON answer of the external classifier that the entry
builder reads.  A field is none when it is absent from the parsed object
or falsy there (the source reads each field through a truthiness or
typeof guard, so absent, null, empty and wrongly typed values all act as
none).  The type and date fields of the classifier are never read by the
source and are omitted. -/
structure AIData where
  amount_type : Option String
  vat_applicable : Option Bool
  category : Option String
  description : Option String
deriving DecidableEq

/-- The classifier contribution used when the answer is unparseable:
every field unknown. -/
def emptyAIData : AIData :=
  { amount_type := none, vat_applicable := none, category := none,
    description := none }

/-- A finished accounting entry. -/
structure Entry where
  type : String
  category : String
  description : String
  date : String
  currency : String
  net : ℚ
  vat : ℚ
  gross : ℚ
  vat_collected : ℚ
  vat_deductible : ℚ
deriving DecidableEq

/-! Amount triplet calculator. -/

/-- Model of computeTriplet.  The amount argument is an optional rational:
none stands for a missing or non-numeric amount, which the source
coerces to zero. -/
def computeTriplet (amount : Option ℚ) (amountType : String) (vatRate : ℚ)
    (vatApplicable : Bool) : Triplet :=
  let A := amount.getD 0
  let r := if vatApplicable then vatRate / 100 else 0
  if r ≤ 0 then
    { net := round2 A, vat := 0, gross := round2 A }
  else if amountType = "net" then
    let vat := round2 (A * r)
    { net := round2 A, vat := vat, gross := round2 (A + vat) }
  else
    let net := round2 (A / (1 + r))
    { net := net, vat := round2 (A - net), gross := round2 A }

/-- The triplet calculation exactly as the specification words it, for the
refinement comparison with computeTriplet: not-applicable or nonpositive
rate collapses to the amount with zero VAT; a net amount gets VAT added
on top, with the gross rounded from the rounded net plus VAT; otherwise
the net is carved out of the gross.  All three components rounded to two
decimals, missing amounts treated as zero. -/
def computeTripletSpec (amount : Option ℚ) (amountType : String)
    (vatRate : ℚ) (vatApplicable : Bool) : Triplet :=
  let A := amount.getD 0
  if vatApplicable = false ∨ vatRate ≤ 0 then
    { net := round2 A, vat := 0, gross := round2 A }
  else if amountType = "net" then
    let net := round2 A
    let vat := round2 (A * (vatRate / 100))
    { net := net, vat := vat, gross := round2 (net + vat) }
  else
    let net := round2 (A / (1 + vatRate / 100))
    { net := net, vat := round2 (A - net), gross := round2 A }

/-! Tokenizer. -/

/-- Character class of the amount group in the tokenizer regex:
digits, whitespace, dot, comma. -/
def isAmountChar (c : Char) : Bool :=
  isDigitChar c || isSpaceChar c || c = '.' || c = ','

/-- Replace the first comma by a dot, modelling replace with a string
pattern, which substitutes only the first occurrence. -/
def commaToDot : List Char → List Char
  | [] => []
  | c :: cs => if c = ',' then '.' :: cs else c :: commaToDot cs

/-- Digits to a natural number. -/
def digitsToNat (cs : List Char) : Nat :=
  cs.foldl (fun a c => 10 * a + (c.toNat - 48)) 0

/-- Model of parseFloat on the alphabet reachable here (digits, dots and
commas left after space stripping and first-comma replacement): an
integer part, an optional dot with a fractional part, anything after
ignored; no digit at all parses to NaN, modelled as none. -/
def parseFloatQ (cs : List Char) : Option ℚ :=
  let intPart := cs.takeWhile isDigitChar
  let rest := cs.dropWhile isDigitChar
  match rest with
  | '.' :: rest2 =>
    let fracPart := rest2.takeWhile isDigitChar
    if intPart.isEmpty && fracPart.isEmpty then none
    else
      some ((digitsToNat intPart : ℚ)
        + (digitsToNat fracPart : ℚ) / (10 : ℚ) ^ fracPart.length)
  | _ =>
    if intPart.isEmpty then none else some (digitsToNat intPart : ℚ)

/-- Tokenize one trimmed nonempty line.  The regex wants a sign, then the
amount group (at least one amount character; the optional whitespace
before it is itself made of amount characters, so the group reaches the
first character outside the class either way), then optionally exactly
three ASCII letters as a currency code.  A line with no sign or whose
amount does not parse to a finite number yields none. -/
def quickLine (cs : List Char) : Option Line :=
  match cs with
  | [] => none
  | sign :: rest =>
    if sign = '+' || sign = '-' then
      let run := rest.takeWhile isAmountChar
      let afterRun := rest.dropWhile isAmountChar
      if run.isEmpty then none
      else
        match parseFloatQ (commaToDot (run.filter (fun c => !(isSpaceChar c)))) with
        | none => none
        | some a =>
          let ty := if sign = '+' then "income" else "expense"
          match afterRun with
          | c1 :: c2 :: c3 :: tail =>
            if isAsciiLetter c1 && isAsciiLetter c2 && isAsciiLetter c3 then
              some { type := ty, amount := a,
                     currency := some ⟨[upperChar c1, upperChar c2, upperChar c3]⟩,
                     rest := ⟨trimL tail⟩, raw := ⟨cs⟩ }
            else
              some { type := ty, amount := a, currency := none,
                     rest := ⟨trimL afterRun⟩, raw := ⟨cs⟩ }
          | _ =>
            some { type := ty, amount := a, currency := none,
                   rest := ⟨trimL afterRun⟩, raw := ⟨cs⟩ }
    else none

/-- The trimmed nonempty lines of a message. -/
def tokLines (text : String) : List (List Char) :=
  ((splitNL text.data).map trimL).filter (fun l => !l.isEmpty)

/-- Model of quickLines: split, trim, drop blanks, tokenize, drop the
lines that did not match. -/
def quickLines (text : String) : List Line :=
  (tokLines text).filterMap quickLine

/-! Classification resolver and entry builder. -/

/-- The merge of explicit textual cues, classifier output and type-based
defaults that decides the final amount type and VAT applicability of a
line (the flag-resolution half of enrichLineWithAI). -/
def resolveFlags (line : Line) (data : AIData) : String × Bool :=
  let combined := line.raw ++ " " ++ line.rest
  let saidWith := saidWithVAT combined
  let saidWithout := saidWithoutVAT combined
  let at0 := data.amount_type.getD "unknown"
  let va0 := data.vat_applicable
  let at1 := if saidWith then "gross" else at0
  let va1 := if saidWith then some true else va0
  let at2 := if saidWithout then "net" else at1
  let va2 := if saidWithout then some false else va1
  let va3 := va2.getD true
  let at3 :=
    if line.type = "income" then
      if at2 = "unknown" then "gross" else at2
    else
      if at2 = "unknown" then (if va3 then "gross" else "net") else at2
  (at3, va3)

/-- The pure part of enrichLineWithAI, given the classifier contribution
already obtained: resolve flags, pick category, description, date and
currency, compute the triplet and assemble the entry.  The current
processing date is an explicit parameter. -/
def enrichLine (line : Line) (data : AIData) (defaults : Settings)
    (todayISO : String) : Entry :=
  let flags := resolveFlags line data
  let amount_type := flags.fst
  let vat_applicable := flags.snd
  let vat_rate := if vat_applicable then defaults.vatRate else 0
  let category := data.category.getD "other"
  let description := data.description.getD line.rest
  let date := resolveDate line.raw line.rest todayISO
  let currency := upperStr (line.currency.getD defaults.currency)
  let t := computeTriplet (some line.amount) amount_type vat_rate vat_applicable
  { type := line.type, category := category, description := description,
    date := date, currency := currency,
    net := t.net, vat := t.vat, gross := t.gross,
    vat_collected := if line.type = "income" then t.vat else 0,
    vat_deductible := if line.type = "expense" && vat_applicable then t.vat else 0 }

/-- Outcome of one external classifier call: the call itself may fail
(rejected request or timeout, which in the source raises out of
enrichLineWithAI), or it responds and its content either parses to a
JSON object or not (parse failure is caught and leaves the empty
object). -/
inductive ClassifierOutcome where
  | failed
  | responded (parsed : Option AIData)
deriving DecidableEq

/-- The per-message ingestion loop of the webhook handler: lines are
processed strictly in order, each awaiting its classifier outcome; a
failed call raises, the surrounding catch stops the loop, and entries
already built are kept.  Returns the entries built and whether the loop
was aborted by a failure. -/
def runLines (settings : Settings) (todayISO : String) :
    List (Line × ClassifierOutcome) → List Entry × Bool
  | [] => ([], false)
  | (l, o) :: rest =>
    match o with
    | .failed => ([], true)
    | .responded d =>
      let e := enrichLine l (d.getD emptyAIData) settings todayISO
      let p := runLines settings todayISO rest
      (e :: p.fst, p.snd)

/-! Aggregates. -/

/-- Summary totals of a slice of the ledger. -/
structure Totals where
  incGross : ℚ
  expGross : ℚ
  incVAT : ℚ
  expVAT : ℚ
  profitGross : ℚ
  vatDue : ℚ
  netAfterVAT : ℚ
deriving DecidableEq

/-- The four running sums accumulated by the totals loop. -/
structure RawSums where
  incGross : ℚ
  expGross : ℚ
  incVAT : ℚ
  expVAT : ℚ
deriving DecidableEq

/-- One step of the totals loop. -/
def totalsAcc (acc : RawSums) (e : Entry) : RawSums :=
  if e.type = "income" then
    { acc with incGross := acc.incGross + e.gross,
               incVAT := acc.incVAT + e.vat_collected }
  else
    { acc with expGross := acc.expGross + e.gross,
               expVAT := acc.expVAT + e.vat_deductible }

/-- Model of totals: one pass over the entries, then the three derived
figures rounded to two decimals. -/
def totals (entries : List Entry) : Totals :=
  let s := entries.foldl totalsAcc { incGross := 0, expGross := 0, incVAT := 0, expVAT := 0 }
  { incGross := s.incGross, expGross := s.expGross,
    incVAT := s.incVAT, expVAT := s.expVAT,
    profitGross := round2 (s.incGross - s.expGross),
    vatDue := round2 (s.incVAT - s.expVAT),
    netAfterVAT := round2 (round2 (s.incGross - s.expGross)
      - round2 (s.incVAT - s.expVAT)) }

/-- First seven characters of a date string, modelling monthOf. -/
def monthOf (s : String) : String :=
  strTake s 7

/-- First four characters of a date string, modelling yearOf. -/
def yearOf (s : String) : String :=
  strTake s 4

/-- Model of vatTotalsMonth: totals of the entries whose month slice
equals the requested year-month key. -/
def vatTotalsMonth (entries : List Entry) (yyyymm : String) : Totals :=
  totals (entries.filter (fun e => monthOf e.date == yyyymm))

/-- Model of vatTotalsYear: totals of the entries whose year slice equals
the requested year key. -/
def vatTotalsYear (entries : List Entry) (yyyy : String) : Totals :=
  totals (entries.filter (fun e => yearOf e.date == yyyy))

/-- The twelve month suffixes of a calendar year. -/
def monthSuffixes : List String :=
  ["-01", "-02", "-03", "-04", "-05", "-06",
   "-07", "-08", "-09", "-10", "-11", "-12"]

/-- The twelve year-month keys of a year string. -/
def monthStringsOf (y : String) : List String :=
  monthSuffixes.map (fun s => y ++ s)

/-! Session store and webhook routing. -/

/-- A session: ledger plus settings. -/
structure SessionState where
  entries : List Entry
  settings : Settings
deriving DecidableEq

/-- The fresh session created on first contact. -/
def initialState : SessionState :=
  { entries := [], settings := { currency := "EUR", vatRate := 20 } }

/-- The process-wide store, keyed by chat identifier. -/
def Store : Type :=
  Int → Option SessionState

/-- The empty store at process start. -/
def emptyStore : Store :=
  fun _ => none

/-- Model of getState: look the session up, creating it with the default
settings when absent; returns the session and the possibly enlarged
store. -/
def getState (store : Store) (chatId : Int) : SessionState × Store :=
  match store chatId with
  | some st => (st, store)
  | none =>
    (initialState, fun c => if c = chatId then some initialState else store c)

/-- What the handler sends back, reduced to the data each reply carries. -/
inductive BotResponse where
  | startHelp
  | resetDone
  | balanceReport (month : Totals) (year : Totals)
  | vatMonthReport (yyyymm : String) (vatDue : ℚ)
  | vatYearReport (yyyy : String) (vatDue : ℚ)
  | formatHint
  | addedReport (entries : List Entry) (month : Totals) (year : Totals)
  | errorLogged
deriving DecidableEq

/-- Parse the optional explicit month argument: whitespace then exactly a
four-digit year, a dash and a two-digit month, ending the text; anything
else (including no argument) falls back to the current month. -/
def vatMonthArg (cs : List Char) : Option String :=
  match cs with
  | [] => none
  | c :: _ =>
    if isSpaceChar c then
      match cs.dropWhile isSpaceChar with
      | [a, b, c2, d, h, e, f] =>
        if isDigitChar a && isDigitChar b && isDigitChar c2 && isDigitChar d
            && h = '-' && isDigitChar e && isDigitChar f then
          some ⟨[a, b, c2, d, '-', e, f]⟩
        else none
      | _ => none
    else none

/-- Parse the optional explicit year argument: whitespace then exactly
four digits ending the text. -/
def vatYearArg (cs : List Char) : Option String :=
  match cs with
  | [] => none
  | c :: _ =>
    if isSpaceChar c then
      match cs.dropWhile isSpaceChar with
      | [a, b, c2, d] =>
        if isDigitChar a && isDigitChar b && isDigitChar c2 && isDigitChar d then
          some ⟨[a, b, c2, d]⟩
        else none
      | _ => none
    else none

/-- Model of the webhook handler for one inbound message: trim the text,
fetch or create the session, route on the command prefixes and otherwise
ingest the text as entry lines.  The classifier outcomes of the message
and the clock-derived strings are explicit parameters.  Returns the
updated store and the response sent. -/
def handleUpdate (store : Store) (chatId : Int) (text0 : String)
    (outcomes : List ClassifierOutcome)
    (todayISO currentMonth currentYear : String) : Store × BotResponse :=
  let text := trimStr text0
  let p := getState store chatId
  let st := p.fst
  let store1 := p.snd
  if text = "/start" then
    (store1, .startHelp)
  else if text = "/reset" then
    (fun c => if c = chatId then some { st with entries := [] } else store1 c,
     .resetDone)
  else if startsWithStr text "/balance" then
    (store1, .balanceReport (vatTotalsMonth st.entries currentMonth)
      (vatTotalsYear st.entries currentYear))
  else if startsWithStr text "/vatmonth" then
    let yyyymm := (vatMonthArg (text.data.drop 9)).getD currentMonth
    (store1, .vatMonthReport yyyymm (vatTotalsMonth st.entries yyyymm).vatDue)
  else if startsWithStr text "/vatyear" then
    let yyyy := (vatYearArg (text.data.drop 8)).getD currentYear
    (store1, .vatYearReport yyyy (vatTotalsYear st.entries yyyy).vatDue)
  else
    let lines := quickLines text
    if lines.isEmpty then
      (store1, .formatHint)
    else
      let r := runLines st.settings todayISO (lines.zip outcomes)
      let newEntries := st.entries ++ r.fst
      ((fun c => if c = chatId then some { st with entries := newEntries } else store1 c),
       if r.snd then .errorLogged
       else .addedReport r.fst (vatTotalsMonth newEntries currentMonth)
         (vatTotalsYear newEntries currentYear))

/-- One inbound message with its environment. -/
structure UpdateMsg where
  chatId : Int
  text : String
  outcomes : List ClassifierOutcome
  todayISO : String
  currentMonth : String
  currentYear : String

/-- Run a sequence of inbound messages against the store. -/
def runUpdates (store : Store) : List UpdateMsg → Store
  | [] => store
  | u :: us =>
    runUpdates
      (handleUpdate store u.chatId u.text u.outcomes u.todayISO
        u.currentMonth u.currentYear).fst us

/-- Concrete line for the C4 witness: an expense with the without-VAT cue,
paired with a classifier answer that claims VAT applies to a gross
amount. -/
def c4line : Line :=
  { type := "expense", amount := 200, currency := none,
    rest := "інтернет без ПДВ", raw := "-200 інтернет без ПДВ" }

def c4data : AIData :=
  { amount_type := some "gross", vat_applicable := some true,
    category := some "internet", description := some "internet bill" }

/-- Concrete line for the C2 counterexample. -/
def c2line : Line :=
  { type := "expense", amount := 200, currency := none,
    rest := "інтернет", raw := "-200 інтернет" }

/-- Numeric value of a digit character. -/
def digitVal (c : Char) : Nat :=
  c.toNat - 48

/-- Gregorian leap year rule. -/
def isLeapYear (y : Nat) : Bool :=
  (y % 4 = 0 && y % 100 ≠ 0) || y % 400 = 0

/-- Days in a calendar month. -/
def daysInMonth (y m : Nat) : Nat :=
  if m = 2 then (if isLeapYear y then 29 else 28)
  else if m = 4 || m = 6 || m = 9 || m = 11 then 30
  else 31

/-- Whether a ten-character ISO-shaped string denotes a real calendar
date: month between one and twelve, day within the month. -/
def validCalendarDate (s : String) : Bool :=
  match s.data with
  | [y1, y2, y3, y4, h1, m1, m2, h2, d1, d2] =>
    isDigitChar y1 && isDigitChar y2 && isDigitChar y3 && isDigitChar y4
      && h1 = '-' && h2 = '-' && isDigitChar m1 && isDigitChar m2
      && isDigitChar d1 && isDigitChar d2
      && (let mo := 10 * digitVal m1 + digitVal m2
          let da := 10 * digitVal d1 + digitVal d2
          let yr := 1000 * digitVal y1 + 100 * digitVal y2
            + 10 * digitVal y3 + digitVal y4
          1 ≤ mo && mo ≤ 12 && 1 ≤ da && da ≤ daysInMonth yr mo)
  | _ => false

/-! Aggregation lemmas for the month versus year sum law. -/

/-- Contribution of an entry to the collected-VAT sum. -/
def wInc (e : Entry) : ℚ :=
  if e.type = "income" then e.vat_collected else 0

/-- Contribution of an entry to the deductible-VAT sum. -/
def wExp (e : Entry) : ℚ :=
  if e.type = "income" then 0 else e.vat_deductible

/-- Sum of a weight over a list of entries. -/
def sumW (w : Entry → ℚ) : List Entry → ℚ
  | [] => 0
  | e :: es => w e + sumW w es

/-- Single-entry ledger for the C6 counterexample.  Its date carries month
thirteen, exactly what the date resolver produces from the dotted token
32.13.2025 (first conjunct of the counterexample theorem), so such
ledgers are reachable through the pipeline. -/
def c6bad : Entry :=
  { type := "income", category := "other", description := "",
    date := "2025-13-32", currency := "EUR", net := 100, vat := 20,
    gross := 120, vat_collected := 20, vat_deductible := 0 }

def c6badEntries : List Entry :=
  [c6bad]

/-- Entries for the second half of the C6 counterexample: VAT fields that
are not whole cents make the per-month roundings drop what the yearly
rounding keeps. -/
def c6t1 : Entry :=
  { type := "income", category := "other", description := "",
    date := "2025-01-10", currency := "EUR", net := 1 / 250, vat := 0,
    gross := 1 / 250, vat_collected := 1 / 250, vat_deductible := 0 }

def c6t2 : Entry :=
  { type := "income", category := "other", description := "",
    date := "2025-02-10", currency := "EUR", net := 1 / 250, vat := 0,
    gross := 1 / 250, vat_collected := 1 / 250, vat_deductible := 0 }

def c6tinyEntries : List Entry :=
  [c6t1, c6t2]

/-- Ledger for the C6 witness: one income and one expense in different
months of 2025, valid dates, whole-cent VAT fields. -/
def c6goodEntries : List Entry :=
  [{ type := "income", category := "other", description := "",
     date := "2025-03-10", currency := "EUR", net := 100, vat := 20,
     gross := 120, vat_collected := 20, vat_deductible := 0 },
   { type := "expense", category := "other", description := "",
     date := "2025-07-02", currency := "EUR", net := 50, vat := 10,
     gross := 60, vat_collected := 0, vat_deductible := 10 }]

/-! Settings invariance. -/

/-- Every session present in the store carries the initial settings. -/
def settingsInvariant (store : Store) : Prop :=
  ∀ (c : Int) (st : SessionState), store c = some st →
    st.settings = initialState.settings

theorem floor_half_q : ⌊(1 / 2 : ℚ)⌋ = 0 := by
  rw [Int.floor_eq_zero_iff]
  constructor <;> norm_num

theorem roundHalfAway_intCast (n : ℤ) : roundHalfAway (n : ℚ) = n := by
  unfold roundHalfAway
  split
  case isTrue h =>
    rw [add_comm, Int.floor_add_int, floor_half_q, zero_add]
  case isFalse h =>
    have : -(n : ℚ) + 1 / 2 = 1 / 2 + (-n : ℤ) := by push_cast; ring
    rw [this, Int.floor_add_int, floor_half_q, zero_add, neg_neg]

theorem roundHalfAway_neg (q : ℚ) : roundHalfAway (-q) = -roundHalfAway q := by
  rcases lt_trichotomy q 0 with h | h | h
  · have h1 : 0 ≤ -q := by linarith
    have h2 : ¬ 0 ≤ q := by linarith
    unfold roundHalfAway
    rw [if_pos h1, if_neg h2, neg_neg]
  · subst h
    have h0 : roundHalfAway 0 = 0 := by
      unfold roundHalfAway
      rw [if_pos le_rfl, zero_add, floor_half_q]
    rw [neg_zero, h0, neg_zero]
  · have h1 : ¬ 0 ≤ -q := by linarith
    have h2 : 0 ≤ q := by linarith
    unfold roundHalfAway
    rw [if_pos h2, if_neg h1, neg_neg]

theorem roundHalfAway_nonneg {q : ℚ} (h : 0 ≤ q) : 0 ≤ roundHalfAway q := by
  unfold roundHalfAway
  rw [if_pos h]
  apply Int.le_floor.mpr
  push_cast
  linarith

theorem roundHalfAway_nonpos {q : ℚ} (h : q ≤ 0) : roundHalfAway q ≤ 0 := by
  have h2 : 0 ≤ -q := by linarith
  have h3 := roundHalfAway_nonneg h2
  have h4 := roundHalfAway_neg q
  omega

theorem roundHalfAway_add_int_nonneg {q : ℚ} {n : ℤ}
    (hq : 0 ≤ q) (hn : 0 ≤ n) :
    roundHalfAway (q + (n : ℚ)) = roundHalfAway q + n := by
  have hn' : (0 : ℚ) ≤ (n : ℚ) := by exact_mod_cast hn
  have hqn : 0 ≤ q + (n : ℚ) := by linarith
  unfold roundHalfAway
  rw [if_pos hqn, if_pos hq]
  have : q + (n : ℚ) + 1 / 2 = (q + 1 / 2) + (n : ℚ) := by ring
  rw [this, Int.floor_add_int]

theorem roundHalfAway_add_int {q : ℚ} {n : ℤ}
    (h : (0 ≤ q ∧ 0 ≤ n) ∨ (q ≤ 0 ∧ n ≤ 0)) :
    roundHalfAway (q + (n : ℚ)) = roundHalfAway q + n := by
  rcases h with ⟨hq, hn⟩ | ⟨hq, hn⟩
  · exact roundHalfAway_add_int_nonneg hq hn
  · have hq' : 0 ≤ -q := by linarith
    have hn' : 0 ≤ -n := by omega
    have key : roundHalfAway (-q + ((-n : ℤ) : ℚ)) = roundHalfAway (-q) + (-n) :=
      roundHalfAway_add_int_nonneg hq' hn'
    have e1 : -q + ((-n : ℤ) : ℚ) = -(q + (n : ℚ)) := by push_cast; ring
    rw [e1, roundHalfAway_neg, roundHalfAway_neg] at key
    omega

theorem abs_roundHalfAway_sub_le (q : ℚ) :
    |((roundHalfAway q : ℤ) : ℚ) - q| ≤ 1 / 2 := by
  unfold roundHalfAway
  split
  case isTrue h =>
    have h1 := Int.floor_le (q + 1 / 2)
    have h2 := Int.lt_floor_add_one (q + 1 / 2)
    rw [abs_le]
    constructor <;> push_cast at * <;> linarith
  case isFalse h =>
    have h1 := Int.floor_le (-q + 1 / 2)
    have h2 := Int.lt_floor_add_one (-q + 1 / 2)
    rw [abs_le]
    constructor <;> push_cast at * <;> linarith

theorem round2_isCent (q : ℚ) : isCent (round2 q) :=
  ⟨roundHalfAway (q * 100), rfl⟩

theorem isCent_zero : isCent 0 :=
  ⟨0, by norm_num⟩

theorem isCent_add {a b : ℚ} (ha : isCent a) (hb : isCent b) : isCent (a + b) := by
  obtain ⟨m, rfl⟩ := ha
  obtain ⟨n, rfl⟩ := hb
  exact ⟨m + n, by push_cast; ring⟩

theorem isCent_sub {a b : ℚ} (ha : isCent a) (hb : isCent b) : isCent (a - b) := by
  obtain ⟨m, rfl⟩ := ha
  obtain ⟨n, rfl⟩ := hb
  exact ⟨m - n, by push_cast; ring⟩

theorem round2_cent_id {q : ℚ} (h : isCent q) : round2 q = q := by
  obtain ⟨k, rfl⟩ := h
  unfold round2
  have e : (k : ℚ) / 100 * 100 = (k : ℚ) := by
    field_simp
  rw [e, roundHalfAway_intCast]

theorem abs_round2_sub_le (q : ℚ) : |round2 q - q| ≤ 1 / 200 := by
  have h := abs_roundHalfAway_sub_le (q * 100)
  unfold round2
  have e : ((roundHalfAway (q * 100) : ℤ) : ℚ) / 100 - q
      = (((roundHalfAway (q * 100) : ℤ) : ℚ) - q * 100) / 100 := by
    ring
  rw [e, abs_div]
  have h100 : |(100 : ℚ)| = 100 := by norm_num
  rw [h100]
  linarith

theorem round2_nonneg {q : ℚ} (h : 0 ≤ q) : 0 ≤ round2 q := by
  unfold round2
  have h1 : 0 ≤ q * 100 := by linarith
  have h2 := roundHalfAway_nonneg h1
  have h3 : (0 : ℚ) ≤ ((roundHalfAway (q * 100) : ℤ) : ℚ) := by exact_mod_cast h2
  linarith

theorem round2_nonpos {q : ℚ} (h : q ≤ 0) : round2 q ≤ 0 := by
  unfold round2
  have h1 : q * 100 ≤ 0 := by linarith
  have h2 := roundHalfAway_nonpos h1
  have h3 : ((roundHalfAway (q * 100) : ℤ) : ℚ) ≤ 0 := by exact_mod_cast h2
  linarith

theorem round2_add_cent {A v : ℚ} (hv : isCent v)
    (hsign : (0 ≤ A ∧ 0 ≤ v) ∨ (A ≤ 0 ∧ v ≤ 0)) :
    round2 (A + v) = round2 A + v := by
  obtain ⟨n, rfl⟩ := hv
  unfold round2
  have harg : (A + (n : ℚ) / 100) * 100 = A * 100 + (n : ℚ) := by
    field_simp
  rw [harg]
  have hsign' : (0 ≤ A * 100 ∧ 0 ≤ n) ∨ (A * 100 ≤ 0 ∧ n ≤ 0) := by
    rcases hsign with ⟨hA, hv⟩ | ⟨hA, hv⟩
    · left
      constructor
      · linarith
      · by_contra hc
        push_neg at hc
        have : ((n : ℤ) : ℚ) < 0 := by exact_mod_cast hc
        have : (n : ℚ) / 100 < 0 := by linarith
        linarith
    · right
      constructor
      · linarith
      · by_contra hc
        push_neg at hc
        have : (0 : ℚ) < ((n : ℤ) : ℚ) := by exact_mod_cast hc
        have : 0 < (n : ℚ) / 100 := by linarith
        linarith
  rw [roundHalfAway_add_int hsign']
  push_cast
  ring

theorem round2_add_round2_mul {A r : ℚ} (hr : 0 < r) :
    round2 (A + round2 (A * r)) = round2 A + round2 (A * r) := by
  rcases le_total 0 A with hA | hA
  · have hv : 0 ≤ round2 (A * r) := round2_nonneg (mul_nonneg hA hr.le)
    exact round2_add_cent (round2_isCent (A * r)) (Or.inl ⟨hA, hv⟩)
  · have hmul : A * r ≤ 0 := mul_nonpos_of_nonpos_of_nonneg hA hr.le
    have hv : round2 (A * r) ≤ 0 := round2_nonpos hmul
    exact round2_add_cent (round2_isCent (A * r)) (Or.inr ⟨hA, hv⟩)

/-! Theorems. -/

theorem round2_cent_sum_id (A r : ℚ) :
    round2 (round2 A + round2 (A * r)) = round2 A + round2 (A * r) :=
  round2_cent_id (isCent_add (round2_isCent A) (round2_isCent (A * r)))

/-- C1: for every amount, amount type, VAT rate and applicability flag,
computeTriplet returns exactly the case analysis of the specification:
not-applicable or nonpositive effective rate gives net = gross = amount
and vat = 0; a net amount gets vat = round of amount times rate over one
hundred and gross = round of net plus vat; otherwise net = round of
amount over one plus rate over one hundred and vat = round of amount
minus net; everything rounded to two decimals half away from zero, a
missing or non-numeric amount treated as zero. -/
theorem computeTriplet_matches_spec (amount : Option ℚ) (amountType : String)
    (vatRate : ℚ) (vatApplicable : Bool) :
    computeTriplet amount amountType vatRate vatApplicable
      = computeTripletSpec amount amountType vatRate vatApplicable := by
  cases vatApplicable
  case false =>
    simp [computeTriplet, computeTripletSpec]
  case true =>
    by_cases hr : vatRate ≤ 0
    · have h1 : vatRate / 100 ≤ 0 := by linarith
      simp [computeTriplet, computeTripletSpec, h1, hr]
    · have h1 : ¬ vatRate / 100 ≤ 0 := by
        intro h
        exact hr (by linarith)
      by_cases hat : amountType = "net"
      · have hpos : 0 < vatRate / 100 := lt_of_not_le h1
        have key := round2_add_round2_mul (A := amount.getD 0) hpos
        have key2 := round2_cent_sum_id (amount.getD 0) (vatRate / 100)
        simp [computeTriplet, computeTripletSpec, h1, hr, hat, key, key2]
      · simp [computeTriplet, computeTripletSpec, h1, hr, hat]

theorem balance_net_branch (A r : ℚ) (hr : 0 < r) :
    |round2 (A + round2 (A * r)) - (round2 A + round2 (A * r))| ≤ 1 / 100 := by
  rw [round2_add_round2_mul hr]
  simp

theorem balance_gross_branch (A n : ℚ) :
    |round2 A - (n + round2 (A - n))| ≤ 1 / 100 := by
  have h3 : round2 A - (n + round2 (A - n))
      = (round2 A - A) + (-(round2 (A - n) - (A - n))) := by
    ring
  rw [h3]
  have h4 := abs_add (round2 A - A) (-(round2 (A - n) - (A - n)))
  rw [abs_neg] at h4
  have e1 := abs_round2_sub_le A
  have e2 := abs_round2_sub_le (A - n)
  linarith

theorem computeTriplet_balance (amount : Option ℚ) (amountType : String)
    (vatRate : ℚ) (vatApplicable : Bool) :
    |(computeTriplet amount amountType vatRate vatApplicable).gross
      - ((computeTriplet amount amountType vatRate vatApplicable).net
        + (computeTriplet amount amountType vatRate vatApplicable).vat)| ≤ 1 / 100 := by
  cases vatApplicable
  case false =>
    simp [computeTriplet]
  case true =>
    by_cases hr : vatRate / 100 ≤ 0
    · simp [computeTriplet, hr]
    · by_cases hat : amountType = "net"
      · have h := balance_net_branch (amount.getD 0) (vatRate / 100)
          (lt_of_not_le hr)
        simpa [computeTriplet, hr, hat] using h
      · have h := balance_gross_branch (amount.getD 0)
          (round2 (amount.getD 0 / (1 + vatRate / 100)))
        simpa [computeTriplet, hr, hat] using h

/-- C3: every entry produced by the entry builder satisfies
gross = net + vat within a tolerance of one cent, for any line,
classifier contribution, settings and processing date. -/
theorem enrichLine_gross_balances (line : Line) (data : AIData)
    (defaults : Settings) (todayISO : String) :
    |(enrichLine line data defaults todayISO).gross
      - ((enrichLine line data defaults todayISO).net
        + (enrichLine line data defaults todayISO).vat)| ≤ 1 / 100 := by
  simp only [enrichLine]
  exact computeTriplet_balance _ _ _ _

/-- C7: computing the triplet of a net amount at a positive rate and then
re-deriving the net from the returned gross as gross over one plus rate
over one hundred recovers the original amount within a cent. -/
theorem computeTriplet_net_roundtrip (a rate : ℚ) (hrate : 0 < rate) :
    |(computeTriplet (some a) "net" rate true).gross / (1 + rate / 100) - a|
      ≤ 1 / 100 := by
  have hr : 0 < rate / 100 := by linarith
  have hbranch : computeTriplet (some a) "net" rate true
      = { net := round2 a, vat := round2 (a * (rate / 100)),
          gross := round2 (a + round2 (a * (rate / 100))) } := by
    simp [computeTriplet, hr.not_le]
  rw [hbranch]
  simp only
  rw [round2_add_round2_mul hr]
  have hden : (0 : ℚ) < 1 + rate / 100 := by linarith
  have heq : (round2 a + round2 (a * (rate / 100))) / (1 + rate / 100) - a
      = ((round2 a - a) + (round2 (a * (rate / 100)) - a * (rate / 100)))
        / (1 + rate / 100) := by
    field_simp
    ring
  rw [heq, abs_div, abs_of_pos hden]
  have hx : |(round2 a - a) + (round2 (a * (rate / 100)) - a * (rate / 100))|
      ≤ 1 / 100 := by
    have h4 := abs_add (round2 a - a)
      (round2 (a * (rate / 100)) - a * (rate / 100))
    have e1 := abs_round2_sub_le a
    have e2 := abs_round2_sub_le (a * (rate / 100))
    linarith
  have hge : (1 : ℚ) ≤ 1 + rate / 100 := by linarith
  calc |(round2 a - a) + (round2 (a * (rate / 100)) - a * (rate / 100))|
        / (1 + rate / 100)
      ≤ |(round2 a - a) + (round2 (a * (rate / 100)) - a * (rate / 100))| :=
        div_le_self (abs_nonneg _) hge
    _ ≤ 1 / 100 := hx

/-- Witness for C7 at amount 833.33 and rate 20. -/
theorem computeTriplet_net_roundtrip_witness :
    (0 : ℚ) < 20
      ∧ |(computeTriplet (some (833.33 : ℚ)) "net" 20 true).gross
          / (1 + (20 : ℚ) / 100) - (833.33 : ℚ)| ≤ 1 / 100 :=
  ⟨by norm_num, computeTriplet_net_roundtrip (833.33 : ℚ) 20 (by norm_num)⟩

/-- C4: for every input line whose combined text carries the without-VAT
phrasing (the case-insensitive cue regex matches the raw line joined with
its free-text remainder, exactly the test the source performs), the
resolved classification is amount type net with VAT not applicable no
matter what the classifier returned, and the final entry consequently has
zero VAT and equal net and gross. -/
theorem withoutVAT_forces_net (line : Line) (data : AIData)
    (defaults : Settings) (todayISO : String)
    (h : saidWithoutVAT (line.raw ++ " " ++ line.rest) = true) :
    resolveFlags line data = ("net", false)
      ∧ (enrichLine line data defaults todayISO).vat = 0
      ∧ (enrichLine line data defaults todayISO).gross
        = (enrichLine line data defaults todayISO).net := by
  have hflags : resolveFlags line data = ("net", false) := by
    simp [resolveFlags, h]
  refine ⟨hflags, ?_, ?_⟩ <;>
    simp [enrichLine, hflags, computeTriplet]

/-- Witness for C4: the cue fires on the concrete line and the resolved
flags are net and not applicable despite the classifier. -/
theorem withoutVAT_forces_net_witness :
    saidWithoutVAT (c4line.raw ++ " " ++ c4line.rest) = true
      ∧ resolveFlags c4line c4data = ("net", false) :=
  ⟨by decide,
   (withoutVAT_forces_net c4line c4data
     { currency := "EUR", vatRate := 20 } "2025-06-15" (by decide)).1⟩

/-- C8: for every store and session, handling a reset command leaves the
session holding an empty ledger and exactly the settings it had before
(the settings of a session that did not yet exist being the initial
ones). -/
theorem reset_clears_ledger_keeps_settings (store : Store) (chatId : Int)
    (outcomes : List ClassifierOutcome)
    (todayISO currentMonth currentYear : String) :
    (handleUpdate store chatId "/reset" outcomes todayISO currentMonth
        currentYear).fst chatId
      = some { entries := [],
               settings := (getState store chatId).fst.settings } := by
  have ht : trimStr "/reset" = "/reset" := by decide
  simp only [handleUpdate, ht]
  simp

/-- C2 counterexample: when the classifier call itself fails for the one
provisional line of a message, the ingestion loop produces no entry at
all — the entry is dropped, against the claim that entry creation always
completes — whereas the same line with an unparseable response does get
its entry. -/
theorem classifier_failure_drops_entry :
    (runLines { currency := "EUR", vatRate := 20 } "2025-06-15"
        [(c2line, ClassifierOutcome.failed)]).fst = []
      ∧ (runLines { currency := "EUR", vatRate := 20 } "2025-06-15"
          [(c2line, ClassifierOutcome.responded none)]).fst.length = 1 := by
  constructor <;> rfl

/-- C2 amended: a classifier response with unparseable content never drops
the entry — the contribution is the empty one, defaults apply, the entry
is appended and processing continues — but a failed classifier call
(rejected request or timeout) raises out of the loop: the entry of that line
and those of all later lines of the message are not created. -/
theorem classifier_unparseable_keeps_entry (line : Line)
    (rest : List (Line × ClassifierOutcome)) (settings : Settings)
    (todayISO : String) :
    runLines settings todayISO
        ((line, ClassifierOutcome.responded none) :: rest)
      = (enrichLine line emptyAIData settings todayISO
          :: (runLines settings todayISO rest).fst,
         (runLines settings todayISO rest).snd)
      ∧ runLines settings todayISO ((line, ClassifierOutcome.failed) :: rest)
        = ([], true) := by
  constructor <;> rfl

theorem filterMap_none_count {α β : Type} (f : α → Option β) (l : List α) :
    (l.filterMap f).length
        + (l.filter (fun a => (f a).isNone)).length
      = l.length := by
  induction l with
  | nil => rfl
  | cons a l ih =>
    cases h : f a with
    | none =>
      simp [List.filterMap_cons, List.filter_cons, h]
      omega
    | some b =>
      simp [List.filterMap_cons, List.filter_cons, h]
      omega

/-- C9: every trimmed nonempty input line on which the tokenizer pattern
fails contributes nothing to the provisional lines (the matched and
unmatched lines together account for all lines, with no error path), and
a non-command message with zero provisional lines is answered with the
format hint while the store is left as mere session-lookup left it. -/
theorem unmatched_lines_dropped_format_hint (text : String) (store : Store)
    (chatId : Int) (outcomes : List ClassifierOutcome)
    (todayISO currentMonth currentYear : String) :
    (quickLines text).length
        + ((tokLines text).filter (fun l => (quickLine l).isNone)).length
      = (tokLines text).length
    ∧ (trimStr text ≠ "/start" → trimStr text ≠ "/reset" →
       startsWithStr (trimStr text) "/balance" = false →
       startsWithStr (trimStr text) "/vatmonth" = false →
       startsWithStr (trimStr text) "/vatyear" = false →
       quickLines (trimStr text) = [] →
       (handleUpdate store chatId text outcomes todayISO currentMonth
           currentYear).snd = BotResponse.formatHint
         ∧ ∀ c : Int,
           (handleUpdate store chatId text outcomes todayISO currentMonth
               currentYear).fst c = (getState store chatId).snd c) := by
  constructor
  · exact filterMap_none_count quickLine (tokLines text)
  · intro h1 h2 h3 h4 h5 h6
    constructor
    · simp [handleUpdate, h1, h2, h3, h4, h5, h6]
    · intro c
      simp [handleUpdate, h1, h2, h3, h4, h5, h6]

/-- Witness for C9 on the message containing just text with no sign:
it is not a command, tokenizes to nothing and draws the format hint. -/
theorem unmatched_lines_dropped_format_hint_witness :
    (handleUpdate emptyStore 1 "just text" [] "2025-06-15" "2025-06"
        "2025").snd = BotResponse.formatHint :=
  ((unmatched_lines_dropped_format_hint "just text" emptyStore 1 []
      "2025-06-15" "2025-06" "2025").2
    (by decide) (by decide) (by decide) (by decide) (by decide)
    (by decide)).1

theorem isoAt_shape {cs m : List Char} (h : isoAt cs = some m) :
    isShapeL m = true := by
  unfold isoAt at h
  split at h
  · split at h
    · cases h
      simp_all [isShapeL]
    · exact Option.noConfusion h
  · exact Option.noConfusion h

theorem dottedAt_shape {cs m : List Char} (h : dottedAt cs = some m) :
    isShapeL m = true := by
  unfold dottedAt at h
  split at h
  · split at h
    · cases h
      simp_all [isShapeL]
    · exact Option.noConfusion h
  · exact Option.noConfusion h

theorem scanISO_shape {cs : List Char} :
    ∀ {prev : Option Char} {m : List Char},
      scanISO prev cs = some m → isShapeL m = true := by
  induction cs with
  | nil =>
    intro prev m h
    exact Option.noConfusion h
  | cons c rest ih =>
    intro prev m h
    unfold scanISO at h
    split at h
    · rename_i m2 heq
      cases h
      by_cases hb : boundaryBefore prev = true
      · rw [if_pos hb] at heq
        exact isoAt_shape heq
      · rw [if_neg hb] at heq
        exact Option.noConfusion heq
    · exact ih h

theorem scanDotted_shape {cs : List Char} :
    ∀ {prev : Option Char} {m : List Char},
      scanDotted prev cs = some m → isShapeL m = true := by
  induction cs with
  | nil =>
    intro prev m h
    exact Option.noConfusion h
  | cons c rest ih =>
    intro prev m h
    unfold scanDotted at h
    split at h
    · rename_i m2 heq
      cases h
      by_cases hb : boundaryBefore prev = true
      · rw [if_pos hb] at heq
        exact dottedAt_shape heq
      · rw [if_neg hb] at heq
        exact Option.noConfusion heq
    · exact ih h

theorem detectExplicitDate_shape {t s : String}
    (h : detectExplicitDate t = some s) : isISOShape s = true := by
  unfold detectExplicitDate at h
  split at h
  · exact Option.noConfusion h
  · split at h
    · rename_i m heq
      cases h
      exact scanISO_shape heq
    · split at h
      · rename_i m heq2
        cases h
        exact scanDotted_shape heq2
      · exact Option.noConfusion h

/-- C5 counterexample: the text 2025-13-99 matches the first date pattern
and date resolution passes it through unchanged, yet month thirteen is no
calendar date, so resolution does not always yield a valid calendar date
string (the validity checker itself accepts genuine dates). -/
theorem date_resolution_not_calendar_valid :
    resolveDate "2025-13-99" "x" "2025-06-15" = "2025-13-99"
      ∧ validCalendarDate "2025-13-99" = false
      ∧ validCalendarDate "2025-06-15" = true := by
  refine ⟨by decide, by decide, by decide⟩

/-- C5 amended: date resolution tries the ISO pattern over the whole
fragment first and the dotted day-first pattern second, the raw line
before the free-text remainder; it never fails, falls back to the current
processing date when nothing matches, and always yields a string of the
ISO shape, four digits, dash, two digits, dash, two digits — though not
necessarily a valid calendar date. -/
theorem date_resolution_shape (raw rest today : String)
    (htoday : isISOShape today = true) :
    isISOShape (resolveDate raw rest today) = true
      ∧ (∀ m : List Char, raw.data ≠ [] → scanISO none raw.data = some m →
          resolveDate raw rest today = ⟨m⟩)
      ∧ (detectExplicitDate raw = none → detectExplicitDate rest = none →
          resolveDate raw rest today = today) := by
  refine ⟨?_, ?_, ?_⟩
  · unfold resolveDate
    cases hd : detectExplicitDate raw with
    | some e =>
      have hs := detectExplicitDate_shape hd
      simp [toISO, hs]
    | none =>
      cases hd2 : detectExplicitDate rest with
      | some e =>
        have hs := detectExplicitDate_shape hd2
        simp [toISO, hs]
      | none =>
        simp [toISO, htoday]
  · intro m hne hscan
    have hd : detectExplicitDate raw = some ⟨m⟩ := by
      unfold detectExplicitDate
      rw [if_neg hne, hscan]
    have hs : isISOShape (⟨m⟩ : String) = true := scanISO_shape hscan
    unfold resolveDate
    rw [hd]
    simp [toISO, hs]
  · intro hd hd2
    unfold resolveDate
    rw [hd, hd2]
    rfl

/-- Witness for C5 amended: a fragment with no date at all resolves to the
current processing date. -/
theorem date_resolution_shape_witness :
    isISOShape "2025-06-15" = true
      ∧ resolveDate "hello there" "world" "2025-06-15" = "2025-06-15" :=
  ⟨by decide,
   (date_resolution_shape "hello there" "world" "2025-06-15"
       (by decide)).2.2 (by decide) (by decide)⟩

theorem foldl_incVAT (es : List Entry) :
    ∀ acc : RawSums,
      (es.foldl totalsAcc acc).incVAT = acc.incVAT + sumW wInc es := by
  induction es with
  | nil =>
    intro acc
    simp [sumW]
  | cons e es ih =>
    intro acc
    rw [List.foldl_cons, ih]
    by_cases h : e.type = "income" <;>
      simp [totalsAcc, wInc, sumW, h] <;> ring

theorem foldl_expVAT (es : List Entry) :
    ∀ acc : RawSums,
      (es.foldl totalsAcc acc).expVAT = acc.expVAT + sumW wExp es := by
  induction es with
  | nil =>
    intro acc
    simp [sumW]
  | cons e es ih =>
    intro acc
    rw [List.foldl_cons, ih]
    by_cases h : e.type = "income" <;>
      simp [totalsAcc, wExp, sumW, h] <;> ring

theorem totals_vatDue (es : List Entry) :
    (totals es).vatDue = round2 (sumW wInc es - sumW wExp es) := by
  simp only [totals]
  rw [foldl_incVAT, foldl_expVAT]
  norm_num

theorem sumW_isCent (w : Entry → ℚ) (es : List Entry)
    (h : ∀ e ∈ es, isCent (w e)) : isCent (sumW w es) := by
  induction es with
  | nil => exact isCent_zero
  | cons e es ih =>
    exact isCent_add (h e (by simp))
      (ih (fun x hx => h x (by simp [hx])))

theorem map_zero_sum {α : Type} (l : List α) :
    (l.map (fun _ => (0 : ℚ))).sum = 0 := by
  induction l with
  | nil => rfl
  | cons a l ih => simp [ih]

theorem map_add_sum {α : Type} (f g : α → ℚ) (l : List α) :
    (l.map (fun x => f x + g x)).sum = (l.map f).sum + (l.map g).sum := by
  induction l with
  | nil => simp
  | cons a l ih =>
    simp [ih]
    ring

theorem map_sub_sum {α : Type} (f g : α → ℚ) (l : List α) :
    (l.map (fun x => f x - g x)).sum = (l.map f).sum - (l.map g).sum := by
  induction l with
  | nil => simp
  | cons a l ih =>
    simp [ih]
    ring

theorem sum_ite_eq_of_nodup (k : String) (c : ℚ) (ms : List String)
    (hnd : ms.Nodup) :
    (ms.map (fun m => if k = m then c else 0)).sum
      = if k ∈ ms then c else 0 := by
  induction ms with
  | nil => simp
  | cons m ms ih =>
    rw [List.map_cons, List.sum_cons, ih (List.Nodup.of_cons hnd)]
    by_cases h : k = m
    · subst h
      have hk : k ∉ ms := (List.nodup_cons.mp hnd).1
      simp [hk]
    · simp [h, List.mem_cons]

theorem sumW_filter_partition (w : Entry → ℚ) (k : Entry → String)
    (es : List Entry) (ms : List String) (hnd : ms.Nodup) :
    (ms.map (fun m => sumW w (es.filter (fun e => k e == m)))).sum
      = sumW w (es.filter (fun e => decide (k e ∈ ms))) := by
  induction es with
  | nil =>
    simp only [List.filter_nil]
    have h0 : (ms.map (fun _ => sumW w [])).sum = 0 := by
      have : sumW w [] = 0 := rfl
      rw [this]
      exact map_zero_sum ms
    rw [h0]
    rfl
  | cons e es ih =>
    have step : ∀ m : String,
        sumW w ((e :: es).filter (fun x => k x == m))
          = (if k e = m then w e else 0)
            + sumW w (es.filter (fun x => k x == m)) := by
      intro m
      by_cases h : k e = m
      · simp [List.filter_cons, h, sumW]
      · simp [List.filter_cons, h]
    calc (ms.map (fun m => sumW w ((e :: es).filter (fun x => k x == m)))).sum
        = (ms.map (fun m => (if k e = m then w e else 0)
            + sumW w (es.filter (fun x => k x == m)))).sum := by
          apply congrArg List.sum
          exact List.map_congr_left (fun m _ => step m)
      _ = (ms.map (fun m => if k e = m then w e else 0)).sum
          + (ms.map (fun m => sumW w (es.filter (fun x => k x == m)))).sum :=
          map_add_sum _ _ ms
      _ = (if k e ∈ ms then w e else 0)
          + sumW w (es.filter (fun x => decide (k x ∈ ms))) := by
          rw [sum_ite_eq_of_nodup (k e) (w e) ms hnd, ih]
      _ = sumW w ((e :: es).filter (fun x => decide (k x ∈ ms))) := by
          by_cases h : k e ∈ ms
          · simp [List.filter_cons, h, sumW]
          · simp [List.filter_cons, h]

theorem strAppend_data (a b : String) : (a ++ b).data = a.data ++ b.data := by
  cases a
  cases b
  rfl

theorem strExt {a b : String} (h : a.data = b.data) : a = b := by
  cases a
  cases b
  simp_all

theorem monthSuffix_len {s : String} (hs : s ∈ monthSuffixes) :
    s.data.length = 3 := by
  simp only [monthSuffixes, List.mem_cons, List.not_mem_nil, or_false] at hs
  rcases hs with rfl | rfl | rfl | rfl | rfl | rfl | rfl | rfl | rfl | rfl | rfl | rfl <;> rfl

theorem monthStringsOf_nodup (y : String) : (monthStringsOf y).Nodup := by
  unfold monthStringsOf
  refine List.Nodup.map ?_ (by decide)
  intro a b hab
  have hab2 : y ++ a = y ++ b := hab
  have h : y.data ++ a.data = y.data ++ b.data := by
    rw [← strAppend_data, ← strAppend_data, hab2]
  exact strExt (List.append_cancel_left h)

theorem monthOf_mem_iff (d : String) (y : String)
    (hy : y.data.length = 4)
    (hmem : monthOf d ∈ monthStringsOf (yearOf d)) :
    (monthOf d ∈ monthStringsOf y ↔ yearOf d = y) := by
  constructor
  · intro h
    rw [monthStringsOf, List.mem_map] at h hmem
    obtain ⟨s1, hs1, he1⟩ := hmem
    obtain ⟨s2, hs2, he2⟩ := h
    have hd1 : (yearOf d).data ++ s1.data = (monthOf d).data := by
      rw [← strAppend_data, he1]
    have hd2 : y.data ++ s2.data = (monthOf d).data := by
      rw [← strAppend_data, he2]
    have hl1 : s1.data.length = 3 := monthSuffix_len hs1
    have hyearLen : (yearOf d).data.length = 4 := by
      have hml : (monthOf d).data.length = min 7 d.data.length := by
        simp [monthOf, strTake]
      have hyl : (yearOf d).data.length = min 4 d.data.length := by
        simp [yearOf, strTake]
      have hcat := congrArg List.length hd1
      rw [List.length_append, hl1, hml, hyl] at hcat
      rw [hyl]
      omega
    have heq : y.data ++ s2.data = (yearOf d).data ++ s1.data := by
      rw [hd1, hd2]
    have hlen : y.data.length = (yearOf d).data.length := by
      rw [hy, hyearLen]
    have := (List.append_inj heq (by rw [hy, hyearLen])).1
    exact (strExt this).symm
  · intro h
    rw [← h]
    exact hmem

theorem filter_month_iff_year (entries : List Entry) (y : String)
    (hy : y.data.length = 4)
    (hmem : ∀ e ∈ entries, monthOf e.date ∈ monthStringsOf (yearOf e.date)) :
    entries.filter (fun e => decide (monthOf e.date ∈ monthStringsOf y))
      = entries.filter (fun e => yearOf e.date == y) := by
  apply List.filter_congr
  intro e he
  have h := monthOf_mem_iff e.date y hy (hmem e he)
  by_cases hc : yearOf e.date = y
  · have hin := h.mpr hc
    simp [hin, hc]
  · have hout : monthOf e.date ∉ monthStringsOf y := fun hin => hc (h.mp hin)
    simp [hout, hc]

theorem month_vatDue_of_filter_empty (entries : List Entry) (m : String)
    (hf : entries.filter (fun e => monthOf e.date == m) = []) :
    (vatTotalsMonth entries m).vatDue = 0 := by
  rw [vatTotalsMonth, hf, totals_vatDue]
  have h0 : sumW wInc ([] : List Entry) - sumW wExp ([] : List Entry) = 0 := by
    simp [sumW]
  rw [h0]
  exact round2_cent_id isCent_zero

theorem monthStrings2025 :
    monthStringsOf "2025"
      = ["2025-01", "2025-02", "2025-03", "2025-04", "2025-05", "2025-06",
         "2025-07", "2025-08", "2025-09", "2025-10", "2025-11", "2025-12"] := by
  decide

theorem roundHalfAway_two_fifths : roundHalfAway (2 / 5 : ℚ) = 0 := by
  unfold roundHalfAway
  rw [if_pos (by norm_num)]
  have h1 : (2 / 5 : ℚ) + 1 / 2 = 9 / 10 := by norm_num
  rw [h1, Int.floor_eq_zero_iff]
  constructor <;> norm_num

theorem roundHalfAway_four_fifths : roundHalfAway (4 / 5 : ℚ) = 1 := by
  unfold roundHalfAway
  rw [if_pos (by norm_num)]
  have h1 : (4 / 5 : ℚ) + 1 / 2 = 13 / 10 := by norm_num
  rw [h1]
  have h2 : ⌊(13 / 10 : ℚ)⌋ = 1 := by
    rw [Int.floor_eq_iff]
    constructor <;> norm_num
  exact h2

/-- C6 counterexample: the date resolver turns the dotted token 32.13.2025
into the thirteenth month of 2025; a ledger whose one entry carries that
date has yearly vatDue twenty but monthly vatDue zero in each of the
twelve months, so the sum law fails; and a ledger with two 0.004 VAT
entries in different months sums to zero monthly but one cent yearly. -/
theorem month_sum_ne_year_vatDue :
    resolveDate "+120 32.13.2025" "" "2025-06-15" = "2025-13-32"
      ∧ ((monthStringsOf "2025").map
          (fun m => (vatTotalsMonth c6badEntries m).vatDue)).sum
          ≠ (vatTotalsYear c6badEntries "2025").vatDue
      ∧ ((monthStringsOf "2025").map
          (fun m => (vatTotalsMonth c6tinyEntries m).vatDue)).sum
          ≠ (vatTotalsYear c6tinyEntries "2025").vatDue := by
  refine ⟨by decide, ?_, ?_⟩
  · have hL : ((monthStringsOf "2025").map
        (fun m => (vatTotalsMonth c6badEntries m).vatDue)).sum = 0 := by
      rw [monthStrings2025]
      simp only [List.map_cons, List.map_nil, List.sum_cons, List.sum_nil]
      rw [month_vatDue_of_filter_empty c6badEntries "2025-01" rfl,
        month_vatDue_of_filter_empty c6badEntries "2025-02" rfl,
        month_vatDue_of_filter_empty c6badEntries "2025-03" rfl,
        month_vatDue_of_filter_empty c6badEntries "2025-04" rfl,
        month_vatDue_of_filter_empty c6badEntries "2025-05" rfl,
        month_vatDue_of_filter_empty c6badEntries "2025-06" rfl,
        month_vatDue_of_filter_empty c6badEntries "2025-07" rfl,
        month_vatDue_of_filter_empty c6badEntries "2025-08" rfl,
        month_vatDue_of_filter_empty c6badEntries "2025-09" rfl,
        month_vatDue_of_filter_empty c6badEntries "2025-10" rfl,
        month_vatDue_of_filter_empty c6badEntries "2025-11" rfl,
        month_vatDue_of_filter_empty c6badEntries "2025-12" rfl]
      norm_num
    have hR : (vatTotalsYear c6badEntries "2025").vatDue = 20 := by
      have hfy : c6badEntries.filter (fun e => yearOf e.date == "2025")
          = c6badEntries := rfl
      rw [vatTotalsYear, hfy, totals_vatDue]
      have hs : sumW wInc c6badEntries - sumW wExp c6badEntries = 20 := by
        simp [sumW, wInc, wExp, c6badEntries, c6bad]
      rw [hs]
      exact round2_cent_id ⟨2000, by norm_num⟩
    rw [hL, hR]
    norm_num
  · have h01 : (vatTotalsMonth c6tinyEntries "2025-01").vatDue = 0 := by
      have hf : c6tinyEntries.filter (fun e => monthOf e.date == "2025-01")
          = [c6t1] := rfl
      rw [vatTotalsMonth, hf, totals_vatDue]
      have hs : sumW wInc [c6t1] - sumW wExp [c6t1] = 1 / 250 := by
        simp [sumW, wInc, wExp, c6t1]
      rw [hs]
      unfold round2
      rw [show (1 / 250 : ℚ) * 100 = 2 / 5 by norm_num,
        roundHalfAway_two_fifths]
      norm_num
    have h02 : (vatTotalsMonth c6tinyEntries "2025-02").vatDue = 0 := by
      have hf : c6tinyEntries.filter (fun e => monthOf e.date == "2025-02")
          = [c6t2] := rfl
      rw [vatTotalsMonth, hf, totals_vatDue]
      have hs : sumW wInc [c6t2] - sumW wExp [c6t2] = 1 / 250 := by
        simp [sumW, wInc, wExp, c6t2]
      rw [hs]
      unfold round2
      rw [show (1 / 250 : ℚ) * 100 = 2 / 5 by norm_num,
        roundHalfAway_two_fifths]
      norm_num
    have hL : ((monthStringsOf "2025").map
        (fun m => (vatTotalsMonth c6tinyEntries m).vatDue)).sum = 0 := by
      rw [monthStrings2025]
      simp only [List.map_cons, List.map_nil, List.sum_cons, List.sum_nil]
      rw [h01, h02,
        month_vatDue_of_filter_empty c6tinyEntries "2025-03" rfl,
        month_vatDue_of_filter_empty c6tinyEntries "2025-04" rfl,
        month_vatDue_of_filter_empty c6tinyEntries "2025-05" rfl,
        month_vatDue_of_filter_empty c6tinyEntries "2025-06" rfl,
        month_vatDue_of_filter_empty c6tinyEntries "2025-07" rfl,
        month_vatDue_of_filter_empty c6tinyEntries "2025-08" rfl,
        month_vatDue_of_filter_empty c6tinyEntries "2025-09" rfl,
        month_vatDue_of_filter_empty c6tinyEntries "2025-10" rfl,
        month_vatDue_of_filter_empty c6tinyEntries "2025-11" rfl,
        month_vatDue_of_filter_empty c6tinyEntries "2025-12" rfl]
      norm_num
    have hR : (vatTotalsYear c6tinyEntries "2025").vatDue = 1 / 100 := by
      have hfy : c6tinyEntries.filter (fun e => yearOf e.date == "2025")
          = c6tinyEntries := rfl
      rw [vatTotalsYear, hfy, totals_vatDue]
      have hs : sumW wInc c6tinyEntries - sumW wExp c6tinyEntries = 1 / 125 := by
        simp [sumW, wInc, wExp, c6tinyEntries, c6t1, c6t2]
        norm_num
      rw [hs]
      unfold round2
      rw [show (1 / 125 : ℚ) * 100 = 4 / 5 by norm_num,
        roundHalfAway_four_fifths]
      norm_num
    rw [hL, hR]
    norm_num

/-- C6 amended: for every ledger whose entries all carry a month slice
that is one of the twelve month keys of their year slice (true of every
valid calendar date) and whole-cent VAT fields (true of every entry the
builder produces), and every four-character year key, the sum over the
twelve months of the monthly vatDue equals the yearly vatDue: under
those conditions every entry dated in the year is counted in exactly one
month and never double-counted. -/
theorem month_sum_eq_year_vatDue (entries : List Entry) (y : String)
    (hy : y.data.length = 4)
    (hmem : ∀ e ∈ entries, monthOf e.date ∈ monthStringsOf (yearOf e.date))
    (hcent : ∀ e ∈ entries, isCent e.vat_collected ∧ isCent e.vat_deductible) :
    ((monthStringsOf y).map
        (fun m => (vatTotalsMonth entries m).vatDue)).sum
      = (vatTotalsYear entries y).vatDue := by
  have hwInc : ∀ e ∈ entries, isCent (wInc e) := by
    intro e he
    unfold wInc
    by_cases h : e.type = "income"
    · simpa [h] using (hcent e he).1
    · simp [h, isCent_zero]
  have hwExp : ∀ e ∈ entries, isCent (wExp e) := by
    intro e he
    unfold wExp
    by_cases h : e.type = "income"
    · simp [h, isCent_zero]
    · simpa [h] using (hcent e he).2
  have hm : ∀ m : String,
      (vatTotalsMonth entries m).vatDue
        = sumW wInc (entries.filter (fun e => monthOf e.date == m))
          - sumW wExp (entries.filter (fun e => monthOf e.date == m)) := by
    intro m
    rw [vatTotalsMonth, totals_vatDue]
    apply round2_cent_id
    refine isCent_sub (sumW_isCent _ _ ?_) (sumW_isCent _ _ ?_)
    · intro e he
      exact hwInc e (List.mem_of_mem_filter he)
    · intro e he
      exact hwExp e (List.mem_of_mem_filter he)
  have hyB : (vatTotalsYear entries y).vatDue
      = sumW wInc (entries.filter (fun e => yearOf e.date == y))
        - sumW wExp (entries.filter (fun e => yearOf e.date == y)) := by
    rw [vatTotalsYear, totals_vatDue]
    apply round2_cent_id
    refine isCent_sub (sumW_isCent _ _ ?_) (sumW_isCent _ _ ?_)
    · intro e he
      exact hwInc e (List.mem_of_mem_filter he)
    · intro e he
      exact hwExp e (List.mem_of_mem_filter he)
  calc ((monthStringsOf y).map
          (fun m => (vatTotalsMonth entries m).vatDue)).sum
      = ((monthStringsOf y).map
          (fun m => sumW wInc (entries.filter (fun e => monthOf e.date == m))
            - sumW wExp (entries.filter (fun e => monthOf e.date == m)))).sum := by
        apply congrArg List.sum
        exact List.map_congr_left (fun m _ => hm m)
    _ = ((monthStringsOf y).map
          (fun m => sumW wInc
            (entries.filter (fun e => monthOf e.date == m)))).sum
        - ((monthStringsOf y).map
          (fun m => sumW wExp
            (entries.filter (fun e => monthOf e.date == m)))).sum :=
        map_sub_sum _ _ _
    _ = sumW wInc
          (entries.filter (fun e => decide (monthOf e.date ∈ monthStringsOf y)))
        - sumW wExp
          (entries.filter (fun e => decide (monthOf e.date ∈ monthStringsOf y))) := by
        rw [sumW_filter_partition wInc (fun e => monthOf e.date) entries
            (monthStringsOf y) (monthStringsOf_nodup y),
          sumW_filter_partition wExp (fun e => monthOf e.date) entries
            (monthStringsOf y) (monthStringsOf_nodup y)]
    _ = sumW wInc (entries.filter (fun e => yearOf e.date == y))
        - sumW wExp (entries.filter (fun e => yearOf e.date == y)) := by
        rw [filter_month_iff_year entries y hy hmem]
    _ = (vatTotalsYear entries y).vatDue := hyB.symm

/-- Witness for C6 amended on a concrete valid ledger. -/
theorem month_sum_eq_year_vatDue_witness :
    ((monthStringsOf "2025").map
        (fun m => (vatTotalsMonth c6goodEntries m).vatDue)).sum
      = (vatTotalsYear c6goodEntries "2025").vatDue :=
  month_sum_eq_year_vatDue c6goodEntries "2025" (by decide) (by decide)
    (by
      intro e he
      simp only [c6goodEntries, List.mem_cons, List.not_mem_nil, or_false] at he
      rcases he with rfl | rfl
      · exact ⟨⟨2000, by norm_num⟩, ⟨0, by norm_num⟩⟩
      · exact ⟨⟨0, by norm_num⟩, ⟨1000, by norm_num⟩⟩)

theorem getState_fst_settings {store : Store} (h : settingsInvariant store)
    (chatId : Int) :
    (getState store chatId).fst.settings = initialState.settings := by
  unfold getState
  cases hs : store chatId with
  | some st => exact h chatId st hs
  | none => rfl

theorem getState_snd_invariant {store : Store} (h : settingsInvariant store)
    (chatId : Int) :
    settingsInvariant (getState store chatId).snd := by
  unfold getState
  cases hs : store chatId with
  | some st => exact h
  | none =>
    intro c st hc
    have hc2 : (if c = chatId then some initialState else store c) = some st := hc
    by_cases hcc : c = chatId
    · rw [if_pos hcc] at hc2
      cases hc2
      rfl
    · rw [if_neg hcc] at hc2
      exact h c st hc2

theorem pointUpdate_invariant {store1 : Store} (h1 : settingsInvariant store1)
    (chatId : Int) (entries2 : List Entry) {s : SessionState}
    (hs : s.settings = initialState.settings) :
    settingsInvariant
      (fun c => if c = chatId then some { s with entries := entries2 }
        else store1 c) := by
  intro c st hc
  have hc2 : (if c = chatId then some { s with entries := entries2 }
      else store1 c) = some st := hc
  by_cases hcc : c = chatId
  · rw [if_pos hcc] at hc2
    cases hc2
    exact hs
  · rw [if_neg hcc] at hc2
    exact h1 c st hc2

theorem handleUpdate_invariant (store : Store) (chatId : Int)
    (text : String) (outcomes : List ClassifierOutcome)
    (todayISO currentMonth currentYear : String)
    (h : settingsInvariant store) :
    settingsInvariant
      (handleUpdate store chatId text outcomes todayISO currentMonth
        currentYear).fst := by
  have hsnd := getState_snd_invariant h chatId
  have hfst := getState_fst_settings h chatId
  simp only [handleUpdate]
  split_ifs with h1 h2 h3 h4 h5 h6
  · exact hsnd
  · exact pointUpdate_invariant hsnd chatId [] hfst
  · exact hsnd
  · exact hsnd
  · exact hsnd
  · exact hsnd
  · exact pointUpdate_invariant hsnd chatId _ hfst
  · exact pointUpdate_invariant hsnd chatId _ hfst

theorem runUpdates_invariant (us : List UpdateMsg) :
    ∀ store, settingsInvariant store →
      settingsInvariant (runUpdates store us) := by
  induction us with
  | nil =>
    intro store h
    exact h
  | cons u us ih =>
    intro store h
    exact ih _ (handleUpdate_invariant store u.chatId u.text u.outcomes
      u.todayISO u.currentMonth u.currentYear h)

/-- C10: starting from the empty store, after any sequence of inbound
messages every existing session carries the settings it was created
with, default currency EUR and VAT rate twenty — no operation (entry
ingestion, reset or any query) ever modifies the settings of a session, so
the rate used for VAT-applicable entries is always the constant twenty
and the fallback currency is always EUR. -/
theorem sessions_settings_constant (us : List UpdateMsg) (chatId : Int)
    (st : SessionState)
    (h : runUpdates emptyStore us chatId = some st) :
    st.settings = { currency := "EUR", vatRate := 20 } := by
  have hinv : settingsInvariant (runUpdates emptyStore us) :=
    runUpdates_invariant us emptyStore
      (by intro c s hc; exact Option.noConfusion hc)
  exact hinv chatId st h

/-- Witness for C10 after one reset message on a fresh session. -/
theorem sessions_settings_constant_witness :
    ({ entries := [],
       settings := { currency := "EUR", vatRate := 20 } } : SessionState).settings
      = { currency := "EUR", vatRate := 20 } :=
  sessions_settings_constant
    [{ chatId := 5, text := "/reset", outcomes := [],
       todayISO := "2025-06-15", currentMonth := "2025-06",
       currentYear := "2025" }] 5
    { entries := [], settings := { currency := "EUR", vatRate := 20 } }
    rfl

end VatBot
